import Mathlib

/-!
Verification of the ethereum-transaction-signer repository.

The repository is a small Rust program (src/app/src: main.rs, config.rs,
de.rs, error.rs, params.rs) that builds an EIP-1559 transaction message
from environment configuration and a parameter JSON file, hashes it,
signs the hash, assembles the signed transaction, RLP-encodes it with a
0x02 type prefix and prints it as a lowercase hex string.

Bytes are modelled as `Nat` (values < 256 in practice), byte sequences as
`List Nat`, and hex strings as `List Char`.  The external crates
(`ethereum` for RLP encoding and hashing, `k256` for ECDSA, `hex`,
`serde_json`) are not part of the repository's sources; their behaviour
is modelled from the specification where it is decisive, and the
cryptographic primitives (Keccak-256 and the ECDSA signing core) are
kept as explicit function parameters of the pipeline.
-/

/-- Value of a big-endian byte string. -/
def beVal : List Nat → Nat
  | [] => 0
  | b :: rest => b * 256 ^ rest.length + beVal rest

/-- Minimal big-endian byte representation, with a fuel bound on the byte
count for structural recursion.  Fuel 64 covers every value below
`256 ^ 64 = 2 ^ 512`, far above the 256-bit capacity of every field. -/
def beBytesAux : Nat → Nat → List Nat
  | 0, _ => []
  | fuel + 1, n => if n = 0 then [] else beBytesAux fuel (n / 256) ++ [n % 256]

/-- Minimal big-endian byte representation of a quantity: no leading zero
byte, and zero is represented by the empty byte string. -/
def beBytes (n : Nat) : List Nat := beBytesAux 64 n

/-- Fixed 32-byte big-endian representation (the `H256` built by
`H256::from_slice` from the 32-byte halves of the signature). -/
def be32 (n : Nat) : List Nat :=
  List.replicate (32 - (beBytes (n % 2 ^ 256)).length) 0 ++ beBytes (n % 2 ^ 256)

/-- Modelled from the spec (4.1): the length prefix of the canonical
(RLP) encoding, with string base 0x80 and list base 0xC0; payloads of
length at most 55 use a single prefix byte, longer payloads use a prefix
byte recording the byte count of the length followed by the length's
big-endian bytes. -/
def lenHeader (base L : Nat) : List Nat :=
  if L ≤ 55 then [base + L]
  else (base + 55 + (beBytes L).length) :: beBytes L

/-- An item of the canonical (RLP) encoding: a byte string or a list. -/
inductive Rlp where
  | str (bytes : List Nat)
  | list (items : List Rlp)

/-- Modelled from the spec (4.1): encoding of a byte string.  A single
byte below 0x80 encodes as itself; otherwise the payload follows its
length prefix. -/
def rlpStrEncode (bytes : List Nat) : List Nat :=
  if bytes.length = 1 ∧ bytes.headD 0 < 128 then bytes
  else lenHeader 128 bytes.length ++ bytes

/-- Modelled from the spec (4.1): recursive encoder, with a fuel bound on
the nesting depth for structural recursion.  The transaction layouts in
this program nest at most four levels deep. -/
def rlpEncodeAux : Nat → Rlp → List Nat
  | _, .str bytes => rlpStrEncode bytes
  | 0, .list _ => []
  | fuel + 1, .list items =>
    let payload := (items.map (rlpEncodeAux fuel)).flatten
    lenHeader 192 payload.length ++ payload

/-- Canonical (RLP) encoding of an item. -/
def Rlp.encode (r : Rlp) : List Nat := rlpEncodeAux 8 r

/-- A Quantity encodes as the byte string of its minimal big-endian
representation (spec 4.1). -/
def rlpQuantity (n : Nat) : Rlp := .str (beBytes n)

/-- The `TransactionAction` of the `ethereum` crate: a call to an address
or a contract creation.  This program only constructs `Call`. -/
inductive TransactionAction where
  | Call (address : List Nat)
  | Create

/-- Modelled from the spec: a `Call` action encodes as the fixed 20-byte
address string, a `Create` action as the empty byte string. -/
def rlpAction : TransactionAction → Rlp
  | .Call address => .str address
  | .Create => .str []

/-- An access-list entry: an address and its list of 32-byte storage
keys.  This program always uses the default empty access list. -/
structure AccessListItem where
  address : List Nat
  storage_keys : List (List Nat)

/-- Modelled from the spec (4.1): an access-list entry encodes as a
2-element list of the address string and the list of storage-key
strings. -/
def rlpAccessItem (item : AccessListItem) : Rlp :=
  .list [.str item.address, .list (item.storage_keys.map Rlp.str)]

/-- The unsigned message of main.rs lines 25-35 (the
`EIP1559TransactionMessage` of the `ethereum` crate): the nine fields
that are hashed for signing. -/
structure EIP1559TransactionMessage where
  chain_id : Nat
  nonce : Nat
  max_priority_fee_per_gas : Nat
  max_fee_per_gas : Nat
  gas_limit : Nat
  action : TransactionAction
  value : Nat
  input : List Nat
  access_list : List AccessListItem

/-- The signed transaction of main.rs lines 50-63 (the
`EIP1559Transaction` of the `ethereum` crate): the nine unsigned fields
followed by the recovery flag and the two signature scalars. -/
structure EIP1559Transaction where
  chain_id : Nat
  nonce : Nat
  max_priority_fee_per_gas : Nat
  max_fee_per_gas : Nat
  gas_limit : Nat
  action : TransactionAction
  value : Nat
  input : List Nat
  access_list : List AccessListItem
  odd_y_parity : Bool
  r : List Nat
  s : List Nat

/-- Modelled from the spec (4.1, 4.2): the ordered field list of the
unsigned message, in the order chain id, nonce, max priority fee, max
fee, gas limit, destination, value, data, access list. -/
def messageFields (m : EIP1559TransactionMessage) : List Rlp :=
  [rlpQuantity m.chain_id, rlpQuantity m.nonce,
   rlpQuantity m.max_priority_fee_per_gas, rlpQuantity m.max_fee_per_gas,
   rlpQuantity m.gas_limit, rlpAction m.action, rlpQuantity m.value,
   Rlp.str m.input, Rlp.list (m.access_list.map rlpAccessItem)]

/-- Modelled from the spec (4.2): the hashed preimage is the one-byte
format-version tag 0x02 followed by the canonical encoding of the nine
unsigned-message fields. -/
def signingPreimage (m : EIP1559TransactionMessage) : List Nat :=
  2 :: (Rlp.list (messageFields m)).encode

/-- main.rs line 38 (`transaction_message.hash()` of the `ethereum`
crate): the digest is the fixed 32-byte hash (Keccak-256, kept here as
the parameter `keccak`) of the signing preimage. -/
def EIP1559TransactionMessage.hash (keccak : List Nat → List Nat)
    (m : EIP1559TransactionMessage) : List Nat :=
  keccak (signingPreimage m)

/-- Modelled from the spec (4.1): the ordered field list of the signed
transaction: the nine unsigned fields followed by the recovery flag
(encoded as the Quantity 0 or 1) and the signature scalars r and s
(encoded as Quantities, i.e. with leading zero bytes stripped). -/
def transactionFields (t : EIP1559Transaction) : List Rlp :=
  [rlpQuantity t.chain_id, rlpQuantity t.nonce,
   rlpQuantity t.max_priority_fee_per_gas, rlpQuantity t.max_fee_per_gas,
   rlpQuantity t.gas_limit, rlpAction t.action, rlpQuantity t.value,
   Rlp.str t.input, Rlp.list (t.access_list.map rlpAccessItem),
   rlpQuantity (if t.odd_y_parity then 1 else 0),
   rlpQuantity (beVal t.r), rlpQuantity (beVal t.s)]

/-- main.rs lines 65-73: the final byte sequence is the one-byte
format-version tag 0x02 followed by the canonical encoding of the
12-field signed transaction. -/
def encodeSignedTransaction (t : EIP1559Transaction) : List Nat :=
  2 :: (Rlp.list (transactionFields t)).encode

/-- main.rs lines 50-63: the signed transaction copies the nine fields
of the unsigned message and stores the signature; the recovery flag is
`(recovery_id.to_byte() & 1) == 1` and r, s are the fixed 32-byte halves
of the signature. -/
def assembleTransaction (m : EIP1559TransactionMessage)
    (r s recovery_id : Nat) : EIP1559Transaction :=
  { chain_id := m.chain_id, nonce := m.nonce,
    max_priority_fee_per_gas := m.max_priority_fee_per_gas,
    max_fee_per_gas := m.max_fee_per_gas, gas_limit := m.gas_limit,
    action := m.action, value := m.value, input := m.input,
    access_list := m.access_list,
    odd_y_parity := Nat.land recovery_id 1 == 1,
    r := be32 r, s := be32 s }

/-- Hex-decoding errors of the `hex` crate used by config.rs and
de.rs. -/
inductive FromHexError where
  | OddLength
  | InvalidHexCharacter (c : Char)
deriving DecidableEq

/-- The opaque `k256::ecdsa::Error`. -/
inductive EcdsaError where
  | mk
deriving DecidableEq

/-- Deserialization errors (serde); the error messages of the source are
elided, only the kinds are kept. -/
inductive DeError where
  | custom
  | missingField
  | invalidType
  | expectedNumberOrHexString
deriving DecidableEq

/-- The error enum of error.rs.  `Dotenv` covers the dotenv failure of
main.rs line 13, which is out of the modelled scope. -/
inductive Error where
  | Config (e : DeError)
  | Dotenv
  | Ecdsa (e : EcdsaError)
  | FromHex (e : FromHexError)
  | InvalidPrivateKeyLength (n : Nat)
deriving DecidableEq

/-- Value of a hex digit, accepting both cases, as in the `hex` crate. -/
def hexDigitVal (c : Char) : Option Nat :=
  if '0' ≤ c ∧ c ≤ '9' then some (c.toNat - '0'.toNat)
  else if 'a' ≤ c ∧ c ≤ 'f' then some (c.toNat - 'a'.toNat + 10)
  else if 'A' ≤ c ∧ c ≤ 'F' then some (c.toNat - 'A'.toNat + 10)
  else none

/-- Pairwise hex decoding; the caller has already checked that the
length is even. -/
def hexDecodePairs : List Char → Except FromHexError (List Nat)
  | [] => .ok []
  | [c] => .error (.InvalidHexCharacter c)
  | c1 :: c2 :: rest =>
    match hexDigitVal c1 with
    | none => .error (.InvalidHexCharacter c1)
    | some hi =>
      match hexDigitVal c2 with
      | none => .error (.InvalidHexCharacter c2)
      | some lo =>
        match hexDecodePairs rest with
        | .error e => .error e
        | .ok bs => .ok ((hi * 16 + lo) :: bs)

/-- `hex::decode`: an odd input length is rejected up front, then the
digits are decoded pairwise. -/
def hexDecode (s : List Char) : Except FromHexError (List Nat) :=
  if s.length % 2 = 1 then .error .OddLength else hexDecodePairs s

/-- The lowercase hex digit of a nibble, as in `hex::encode`. -/
def hexDigitChar (d : Nat) : Char :=
  match d with
  | 0 => '0' | 1 => '1' | 2 => '2' | 3 => '3' | 4 => '4'
  | 5 => '5' | 6 => '6' | 7 => '7' | 8 => '8' | 9 => '9'
  | 10 => 'a' | 11 => 'b' | 12 => 'c' | 13 => 'd' | 14 => 'e'
  | _ => 'f'

/-- `hex::encode`: each byte becomes two lowercase hex digits. -/
def hexEncode : List Nat → List Char
  | [] => []
  | b :: rest => hexDigitChar (b / 16 % 16) :: hexDigitChar (b % 16) :: hexEncode rest

/-- main.rs line 76: the output is rendered as a lowercase hex string
prefixed with 0x. -/
def renderOutput (bytes : List Nat) : List Char :=
  '0' :: 'x' :: hexEncode bytes

/-- config.rs lines 27-30: `strip_prefix("0x").unwrap_or(..)`. -/
def strip0x (s : List Char) : List Char :=
  match s with
  | c1 :: c2 :: rest => if c1 = '0' ∧ c2 = 'x' then rest else s
  | _ => s

/-- The configuration struct of config.rs. -/
structure Config where
  chain_id : Nat
  max_fee_per_gas : Nat
  max_priority_fee_per_gas : Nat
  private_key : List Char
deriving DecidableEq

/-- config.rs lines 25-36: strip an optional 0x prefix, hex-decode, and
require exactly 32 bytes, reporting any other decoded length. -/
def Config.get_private_key_bytes (c : Config) : Except Error (List Nat) :=
  match hexDecode (strip0x c.private_key) with
  | .error e => .error (.FromHex e)
  | .ok decoded =>
    if decoded.length = 32 then .ok decoded
    else .error (.InvalidPrivateKeyLength decoded.length)

/-- The parameter struct of params.rs. -/
structure Params where
  nonce : Nat
  to_address : List Nat
  value : Nat
  gas_limit : Nat
  input : List Nat
deriving DecidableEq

/-- The order of the secp256k1 curve.  Modelled from the spec (4.3):
the curve order against which the `k256` crate validates the private
scalar. -/
def curveOrder : Nat :=
  0xFFFFFFFFFFFFFFFFFFFFFFFFFFFFFFFEBAAEDCE6AF48A03BBFD25E8CD0364141

/-- Modelled from the spec (4.3): `SigningKey::from_slice` of the `k256`
crate fails on a wrong byte length and on a scalar that is zero or not
below the curve order; otherwise the signing key is the scalar value. -/
def SigningKey.from_slice (bytes : List Nat) : Except EcdsaError Nat :=
  if bytes.length = 32 then
    if beVal bytes = 0 ∨ curveOrder ≤ beVal bytes then .error .mk
    else .ok (beVal bytes)
  else .error .mk

/-- main.rs lines 25-35: the unsigned message is built from the
configuration (chain id and the two fee quantities), the parameters
(nonce, destination, value, gas limit, call data) and the default empty
access list. -/
def messageOf (config : Config) (params : Params) : EIP1559TransactionMessage :=
  { chain_id := config.chain_id, nonce := params.nonce,
    max_priority_fee_per_gas := config.max_priority_fee_per_gas,
    max_fee_per_gas := config.max_fee_per_gas, gas_limit := params.gas_limit,
    action := .Call params.to_address, value := params.value,
    input := params.input, access_list := [] }

/-- The digest computed at main.rs line 38, as a function of the inputs:
the hash of the signing preimage of the unsigned message. -/
def pipelineDigest (keccak : List Nat → List Nat)
    (config : Config) (params : Params) : List Nat :=
  (messageOf config params).hash keccak

/-- main.rs lines 24-73: the signing pipeline after input acquisition.
`keccak` is the external Keccak-256 hash and `sign` the external ECDSA
signing core of the `k256` crate, which maps a signing key, a 32-byte
digest and its environment (potential entropy, which `k256` does not
consume) to the scalars r and s and the recovery identifier.  The result
is the final byte sequence (type tag then encoded signed transaction). -/
def run_signing (keccak : List Nat → List Nat)
    (sign : Nat → List Nat → Nat → Except EcdsaError (Nat × Nat × Nat))
    (env : Nat) (config : Config) (params : Params) : Except Error (List Nat) :=
  let transaction_message := messageOf config params
  let transaction_hash := transaction_message.hash keccak
  match config.get_private_key_bytes with
  | .error e => .error e
  | .ok private_key_bytes =>
    match SigningKey.from_slice private_key_bytes with
    | .error e => .error (.Ecdsa e)
    | .ok signing_key =>
      match sign signing_key transaction_hash env with
      | .error e => .error (.Ecdsa e)
      | .ok (r, s, recovery_id) =>
        .ok (encodeSignedTransaction
          (assembleTransaction transaction_message r s recovery_id))

/-- A JSON number as classified by serde_json: an unsigned 64-bit
integer, a negative integer, or a finite float (any number that is
fractional or exceeds the 64-bit range).  Only the classification
matters to this program; the float payload is irrelevant and elided. -/
inductive JsonNumber where
  | u64val (n : Nat)
  | negInt (m : Int)
  | float
deriving DecidableEq

/-- `serde_json::Number::as_u64`: only the unsigned 64-bit variant has a
value. -/
def JsonNumber.as_u64 : JsonNumber → Option Nat
  | .u64val n => some n
  | _ => none

/-- A JSON value as seen by serde_json (strings as character lists,
objects as association lists). -/
inductive Json where
  | num (n : JsonNumber)
  | str (s : List Char)
  | bool (b : Bool)
  | null
  | arr (items : List Json)
  | obj (fields : List (List Char × Json))

/-- First binding of a key in an object's field list. -/
def lookupField : List (List Char × Json) → List Char → Option Json
  | [], _ => none
  | (k, v) :: rest, key => if k = key then some v else lookupField rest key

/-- Field access on a JSON value: only objects have fields. -/
def Json.get (j : Json) (key : List Char) : Option Json :=
  match j with
  | .obj fields => lookupField fields key
  | _ => none

/-- A required serde field: absence is a deserialization error. -/
def getField (j : Json) (key : List Char) : Except DeError Json :=
  match j.get key with
  | some v => .ok v
  | none => .error .missingField

/-- Value of a string of hex digits (most significant first). -/
def hexVal : List Char → Nat
  | [] => 0
  | c :: rest => (hexDigitVal c).getD 0 * 16 ^ rest.length + hexVal rest

/-- `U256::from_str_radix(s, 16)` as pinned by the tests of de.rs and
config.rs: an optional 0x prefix is stripped, the remaining characters
must be a nonempty string of hex digits, and the value must fit in 256
bits. -/
def from_str_radix16 (s : List Char) : Except DeError Nat :=
  let t := strip0x s
  if t = [] then .error .custom
  else if t.all (fun c => (hexDigitVal c).isSome) then
    if hexVal t < 2 ^ 256 then .ok (hexVal t) else .error .custom
  else .error .custom

/-- de.rs lines 4-17: a JSON number deserializes to
`as_u64().unwrap_or(0)`; a JSON string is parsed in base 16; any other
value is a custom error. -/
def deserialize_u256 (j : Json) : Except DeError Nat :=
  match j with
  | .num n => .ok (n.as_u64.getD 0)
  | .str s => from_str_radix16 s
  | _ => .error .expectedNumberOrHexString

/-- de.rs lines 19-31: the value must be a string; an optional 0x prefix
is stripped; an empty remainder yields the empty byte sequence,
otherwise the remainder is hex-decoded. -/
def deserialize_hex_bytes (j : Json) : Except DeError (List Nat) :=
  match j with
  | .str s =>
    let trimmed := strip0x s
    if trimmed = [] then .ok []
    else
      match hexDecode trimmed with
      | .ok bs => .ok bs
      | .error _ => .error .custom
  | _ => .error .invalidType

/-- `H160` deserialization (impl-serde, used for `to_address` in
params.rs): a string of 0x followed by exactly 40 hex digits. -/
def parseH160 (j : Json) : Except DeError (List Nat) :=
  match j with
  | .str s =>
    match s with
    | '0' :: 'x' :: rest =>
      if rest.length = 40 then
        match hexDecode rest with
        | .ok bs => .ok bs
        | .error _ => .error .custom
      else .error .custom
    | _ => .error .custom
  | _ => .error .invalidType

/-- serde `u64` deserialization: the value must be a JSON number in the
unsigned 64-bit range. -/
def parseU64 (j : Json) : Except DeError Nat :=
  match j with
  | .num n =>
    match n.as_u64 with
    | some v => .ok v
    | none => .error .invalidType
  | _ => .error .invalidType

/-- serde `String` deserialization. -/
def parseString (j : Json) : Except DeError (List Char) :=
  match j with
  | .str s => .ok s
  | _ => .error .invalidType

/-- params.rs lines 7-18: the optional `input` field defaults to the
empty byte sequence when absent and is deserialized with
`deserialize_hex_bytes` when present. -/
def parseInputField (v : Option Json) : Except DeError (List Nat) :=
  match v with
  | none => .ok []
  | some j => deserialize_hex_bytes j

def nonceKey : List Char := ['n', 'o', 'n', 'c', 'e']

def toAddressKey : List Char := ['t', 'o', '_', 'a', 'd', 'd', 'r', 'e', 's', 's']

def valueKey : List Char := ['v', 'a', 'l', 'u', 'e']

def gasLimitKey : List Char := ['g', 'a', 's', '_', 'l', 'i', 'm', 'i', 't']

def inputKey : List Char := ['i', 'n', 'p', 'u', 't']

def chainIdKey : List Char := ['c', 'h', 'a', 'i', 'n', '_', 'i', 'd']

def maxFeeKey : List Char :=
  ['m', 'a', 'x', '_', 'f', 'e', 'e', '_', 'p', 'e', 'r', '_', 'g', 'a', 's']

def maxPriorityFeeKey : List Char :=
  ['m', 'a', 'x', '_', 'p', 'r', 'i', 'o', 'r', 'i', 't', 'y', '_',
   'f', 'e', 'e', '_', 'p', 'e', 'r', '_', 'g', 'a', 's']

def privateKeyKey : List Char :=
  ['p', 'r', 'i', 'v', 'a', 't', 'e', '_', 'k', 'e', 'y']

/-- The serde deserialization of `Params` (params.rs lines 7-18). -/
def parseParams (j : Json) : Except DeError Params := do
  let nonce ← deserialize_u256 (← getField j nonceKey)
  let to_address ← parseH160 (← getField j toAddressKey)
  let value ← deserialize_u256 (← getField j valueKey)
  let gas_limit ← deserialize_u256 (← getField j gasLimitKey)
  let input ← parseInputField (j.get inputKey)
  return { nonce, to_address, value, gas_limit, input }

/-- The serde deserialization of `Config` (config.rs lines 6-14), as
exercised by its tests. -/
def parseConfig (j : Json) : Except DeError Config := do
  let chain_id ← parseU64 (← getField j chainIdKey)
  let max_fee_per_gas ← deserialize_u256 (← getField j maxFeeKey)
  let max_priority_fee_per_gas ← deserialize_u256 (← getField j maxPriorityFeeKey)
  let private_key ← parseString (← getField j privateKeyKey)
  return { chain_id, max_fee_per_gas, max_priority_fee_per_gas, private_key }

/-- config.rs lines 17-23: configuration failures are returned as the
typed `Error::Config` variant. -/
def Config.from_env (j : Json) : Except Error Config :=
  match parseConfig j with
  | .ok c => .ok c
  | .error e => .error (.Config e)

/-- Completion or process abort: `panic` models a Rust panic (an
`unwrap`/`expect` failure), which is not a value returned to any
caller. -/
inductive PanicOr (α : Type) where
  | panic
  | value (a : α)

/-- params.rs lines 20-25: the parameter file is read and deserialized
with `.unwrap()`, so any deserialization failure is a panic, not a
returned error.  The file content is modelled as its parsed JSON
value. -/
def Params.from_path (j : Json) : PanicOr Params :=
  match parseParams j with
  | .ok p => .value p
  | .error _ => .panic

/-- main.rs lines 12-79: the whole run.  Configuration errors are
returned as typed errors; a parameter-file deserialization failure is a
panic; on success the final bytes are rendered as a 0x-prefixed
lowercase hex string. -/
def main_run (keccak : List Nat → List Nat)
    (sign : Nat → List Nat → Nat → Except EcdsaError (Nat × Nat × Nat))
    (env : Nat) (configJson paramsJson : Json) :
    PanicOr (Except Error (List Char)) :=
  match Config.from_env configJson with
  | .error e => .value (.error e)
  | .ok config =>
    match Params.from_path paramsJson with
    | .panic => .panic
    | .value params =>
      match run_signing keccak sign env config params with
      | .error e => .value (.error e)
      | .ok bytes => .value (.ok (renderOutput bytes))

/-- The lowercase hex alphabet used for output rendering. -/
def lowerHexChars : List Char :=
  ['0', '1', '2', '3', '4', '5', '6', '7'] ++
    ['8', '9', 'a', 'b', 'c', 'd', 'e', 'f']

/-- A placeholder hash function for concrete test runs (the pipeline is
parametric in the hash). -/
def keccak0 : List Nat → List Nat := fun _ => List.replicate 32 0

/-- A placeholder signing core for concrete test runs (the pipeline is
parametric in the signer). -/
def sign0 : Nat → List Nat → Nat → Except EcdsaError (Nat × Nat × Nat) :=
  fun _ _ _ => .ok (0, 0, 0)

/-- A 64-character hex key string with value 1. -/
def key64 : List Char := List.replicate 63 '0' ++ ['1']

/-- A concrete valid configuration. -/
def cfg0 : Config :=
  { chain_id := 1, max_fee_per_gas := 0, max_priority_fee_per_gas := 0,
    private_key := key64 }

/-- A concrete valid parameter set (zero address, empty call data). -/
def p0 : Params :=
  { nonce := 0, to_address := List.replicate 20 0, value := 0,
    gas_limit := 0, input := [] }

/-- The JSON form of `cfg0`. -/
def cfgJson0 : Json :=
  Json.obj [(chainIdKey, .num (.u64val 1)), (maxFeeKey, .num (.u64val 0)),
            (maxPriorityFeeKey, .num (.u64val 0)), (privateKeyKey, .str key64)]

/-- The JSON form of `p0` (the `input` field is absent). -/
def paramsJson0 : Json :=
  Json.obj [(nonceKey, .num (.u64val 0)),
            (toAddressKey, .str ('0' :: 'x' :: List.replicate 40 '0')),
            (valueKey, .num (.u64val 0)), (gasLimitKey, .num (.u64val 0))]

/-- A parameter JSON whose nonce is not a valid hex quantity. -/
def badParamsJson : Json :=
  Json.obj [(nonceKey, .str ['z']),
            (toAddressKey, .str ('0' :: 'x' :: List.replicate 40 '0')),
            (valueKey, .num (.u64val 0)), (gasLimitKey, .num (.u64val 0))]

/-- A configuration whose key decodes to 31 bytes. -/
def cfgShortKey : Config :=
  { chain_id := 1, max_fee_per_gas := 0, max_priority_fee_per_gas := 0,
    private_key := List.replicate 62 '0' }

/-- A configuration whose key decodes to the zero scalar. -/
def cfgZeroKey : Config :=
  { chain_id := 1, max_fee_per_gas := 0, max_priority_fee_per_gas := 0,
    private_key := List.replicate 64 '0' }

theorem land_one_eq_mod (n : Nat) : Nat.land n 1 = n % 2 := Nat.and_one_is_mod n

theorem beVal_append (xs ys : List Nat) :
    beVal (xs ++ ys) = beVal xs * 256 ^ ys.length + beVal ys := by
  induction xs with
  | nil => simp [beVal]
  | cons b rest ih =>
    show beVal (b :: (rest ++ ys)) = _
    rw [beVal, ih, List.length_append, beVal]
    ring

theorem beVal_beBytesAux (fuel n : Nat) (h : n < 256 ^ fuel) :
    beVal (beBytesAux fuel n) = n := by
  induction fuel generalizing n with
  | zero => simp at h; simp [h, beBytesAux, beVal]
  | succ fuel ih =>
    by_cases hz : n = 0
    · simp [hz, beBytesAux, beVal]
    · have hdiv : n / 256 < 256 ^ fuel := by
        rw [Nat.div_lt_iff_lt_mul (by norm_num)]
        calc n < 256 ^ (fuel + 1) := h
          _ = 256 ^ fuel * 256 := by rw [pow_succ]
      rw [beBytesAux, if_neg hz, beVal_append, ih (n / 256) hdiv]
      simp [beVal]
      omega

theorem beVal_replicate_zero (k : Nat) (bs : List Nat) :
    beVal (List.replicate k 0 ++ bs) = beVal bs := by
  induction k with
  | zero => simp
  | succ k ih => simpa [beVal] using ih

theorem beVal_be32 (n : Nat) (h : n < 2 ^ 256) : beVal (be32 n) = n := by
  have hm : n % 2 ^ 256 = n := Nat.mod_eq_of_lt h
  have hb : n < 256 ^ 64 := lt_of_lt_of_le h (by norm_num)
  simp only [be32, hm, beVal_replicate_zero, beBytes]
  exact beVal_beBytesAux 64 n hb

theorem hexDigitChar_mem_lower (d : Nat) : hexDigitChar d ∈ lowerHexChars := by
  unfold hexDigitChar
  split <;> decide

theorem hexEncode_mem_lower (bs : List Nat) (c : Char) (h : c ∈ hexEncode bs) :
    c ∈ lowerHexChars := by
  induction bs with
  | nil => simp [hexEncode] at h
  | cons b rest ih =>
    simp only [hexEncode, List.mem_cons] at h
    rcases h with h | h | h
    · rw [h]; exact hexDigitChar_mem_lower _
    · rw [h]; exact hexDigitChar_mem_lower _
    · exact ih h

theorem hexDecodePairs_ok (s : List Char)
    (hall : ∀ c ∈ s, (hexDigitVal c).isSome) (heven : s.length % 2 = 0) :
    ∃ bs, hexDecodePairs s = .ok bs ∧ 2 * bs.length = s.length := by
  induction s using hexDecodePairs.induct with
  | case1 => exact ⟨[], rfl, rfl⟩
  | case2 c => simp at heven
  | case3 c1 c2 rest hnone =>
    have h1 := hall c1 (by simp)
    rw [hnone] at h1
    simp at h1
  | case4 c1 c2 rest hi hhi hnone =>
    have h2 := hall c2 (by simp)
    rw [hnone] at h2
    simp at h2
  | case5 c1 c2 rest hi hhi lo hlo e herr ih =>
    have hresta : ∀ c ∈ rest, (hexDigitVal c).isSome :=
      fun c hc => hall c (by simp [hc])
    have hreste : rest.length % 2 = 0 := by
      simp only [List.length_cons] at heven
      omega
    obtain ⟨bs, hok, _⟩ := ih hresta hreste
    rw [hok] at herr
    cases herr
  | case6 c1 c2 rest hi hhi lo hlo bs hok ih =>
    have hresta : ∀ c ∈ rest, (hexDigitVal c).isSome :=
      fun c hc => hall c (by simp [hc])
    have hreste : rest.length % 2 = 0 := by
      simp only [List.length_cons] at heven
      omega
    obtain ⟨bs2, hok2, hlen⟩ := ih hresta hreste
    rw [hok] at hok2
    cases hok2
    refine ⟨(hi * 16 + lo) :: bs, ?_, ?_⟩
    · simp [hexDecodePairs, hhi, hlo, hok]
    · simp only [List.length_cons]
      omega

/-- Claim C1: the signed digest is the hash of the preimage made of the
one-byte format tag followed by the canonical encoding of exactly the
nine unsigned-message fields (chain id, nonce, max priority fee, max
fee, gas limit, destination, value, data, access list); no signature
field occurs in the preimage, and the digest is determined before and
independently of the signing step: two runs whose signers agree on that
digest produce identical results. -/
theorem digest_from_exactly_unsigned_fields
    (keccak : List Nat → List Nat)
    (sign₁ sign₂ : Nat → List Nat → Nat → Except EcdsaError (Nat × Nat × Nat))
    (env₁ env₂ : Nat) (config : Config) (params : Params)
    (hagree : ∀ k, sign₁ k (pipelineDigest keccak config params) env₁ =
                   sign₂ k (pipelineDigest keccak config params) env₂) :
    pipelineDigest keccak config params =
      keccak (2 :: (Rlp.list [rlpQuantity config.chain_id, rlpQuantity params.nonce,
        rlpQuantity config.max_priority_fee_per_gas,
        rlpQuantity config.max_fee_per_gas, rlpQuantity params.gas_limit,
        Rlp.str params.to_address, rlpQuantity params.value,
        Rlp.str params.input, Rlp.list []]).encode)
    ∧ run_signing keccak sign₁ env₁ config params =
        run_signing keccak sign₂ env₂ config params := by
  constructor
  · rfl
  · cases hpk : config.get_private_key_bytes with
    | error e => simp [run_signing, hpk]
    | ok pk =>
      cases hsk : SigningKey.from_slice pk with
      | error e => simp [run_signing, hpk, hsk]
      | ok sk =>
        have h := hagree sk
        simp only [pipelineDigest] at h
        simp [run_signing, hpk, hsk, h]

/-- Witness for C1 at a concrete configuration and parameter set, with
signers that agree on the digest. -/
theorem digest_from_exactly_unsigned_fields_witness :
    pipelineDigest keccak0 cfg0 p0 =
      keccak0 (2 :: (Rlp.list [rlpQuantity cfg0.chain_id, rlpQuantity p0.nonce,
        rlpQuantity cfg0.max_priority_fee_per_gas,
        rlpQuantity cfg0.max_fee_per_gas, rlpQuantity p0.gas_limit,
        Rlp.str p0.to_address, rlpQuantity p0.value,
        Rlp.str p0.input, Rlp.list []]).encode)
    ∧ run_signing keccak0 sign0 0 cfg0 p0 = run_signing keccak0 sign0 1 cfg0 p0 :=
  digest_from_exactly_unsigned_fields keccak0 sign0 sign0 0 1 cfg0 p0
    (fun _ => rfl)

/-- Claim C3: with a deterministic signer (the per-message nonce is
derived from the key and digest only, no external randomness), two runs
of the pipeline on identical inputs are byte-identical whatever the
entropy environments are: the pipeline consumes no other source of
variation. -/
theorem signing_deterministic
    (keccak : List Nat → List Nat)
    (sign : Nat → List Nat → Nat → Except EcdsaError (Nat × Nat × Nat))
    (env₁ env₂ : Nat) (config : Config) (params : Params)
    (hdet : ∀ k d e₁ e₂, sign k d e₁ = sign k d e₂) :
    run_signing keccak sign env₁ config params =
      run_signing keccak sign env₂ config params := by
  cases hpk : config.get_private_key_bytes with
  | error e => simp [run_signing, hpk]
  | ok pk =>
    cases hsk : SigningKey.from_slice pk with
    | error e => simp [run_signing, hpk, hsk]
    | ok sk =>
      simp [run_signing, hpk, hsk, hdet sk _ env₁ env₂]

/-- Witness for C3 at a concrete run with a deterministic signer. -/
theorem signing_deterministic_witness :
    run_signing keccak0 sign0 0 cfg0 p0 = run_signing keccak0 sign0 7 cfg0 p0 :=
  signing_deterministic keccak0 sign0 0 7 cfg0 p0 (fun _ _ _ _ => rfl)

/-- Claim C4: the recovery flag stored in the assembled signed
transaction is true exactly when the recovery identifier returned by the
signer is odd. -/
theorem recovery_flag_iff_odd (m : EIP1559TransactionMessage)
    (r s recovery_id : Nat) :
    (assembleTransaction m r s recovery_id).odd_y_parity = true ↔
      recovery_id % 2 = 1 := by
  simp [assembleTransaction, land_one_eq_mod]

/-- Claim C5: when the key hex string decodes to a byte count other than
32, the private-key decoding fails with the key-length-mismatch error
carrying that byte count, an error kind distinct from the hex-decoding
errors. -/
theorem key_length_mismatch_reported (config : Config) (bytes : List Nat)
    (hdec : hexDecode (strip0x config.private_key) = .ok bytes)
    (hlen : bytes.length ≠ 32) :
    config.get_private_key_bytes =
      .error (.InvalidPrivateKeyLength bytes.length)
    ∧ ∀ e, Error.InvalidPrivateKeyLength bytes.length ≠ Error.FromHex e := by
  constructor
  · simp only [Config.get_private_key_bytes, hdec]
    simp [hlen]
  · intro e h
    cases h

/-- Witness for C5: a 62-character key decodes to 31 bytes and is
reported with that length. -/
theorem key_length_mismatch_reported_witness :
    cfgShortKey.get_private_key_bytes =
      .error (.InvalidPrivateKeyLength (List.replicate 31 0).length)
    ∧ ∀ e, Error.InvalidPrivateKeyLength (List.replicate 31 0).length ≠
        Error.FromHex e :=
  key_length_mismatch_reported cfgShortKey (List.replicate 31 0) rfl
    (by decide)

theorem private_key_bytes_length (config : Config) (bytes : List Nat)
    (h : config.get_private_key_bytes = .ok bytes) : bytes.length = 32 := by
  cases hd : hexDecode (strip0x config.private_key) with
  | error e => simp [Config.get_private_key_bytes, hd] at h
  | ok decoded =>
    by_cases hl : decoded.length = 32
    · simp only [Config.get_private_key_bytes, hd, if_pos hl] at h
      cases h
      exact hl
    · simp [Config.get_private_key_bytes, hd, hl] at h

/-- Claim C2: on every successful run the produced byte sequence is the
one-byte format-version tag 0x02 followed by the canonical (RLP)
encoding of the 12-field signed transaction (the nine unsigned fields
followed by the recovery flag and r and s), and the whole run renders it
as a lowercase hex string prefixed with 0x. -/
theorem signed_output_format
    (keccak : List Nat → List Nat)
    (sign : Nat → List Nat → Nat → Except EcdsaError (Nat × Nat × Nat))
    (env : Nat) (configJson paramsJson : Json) (config : Config)
    (params : Params) (pk : List Nat) (sk r s recid : Nat) (out : List Nat)
    (hcfg : parseConfig configJson = .ok config)
    (hp : parseParams paramsJson = .ok params)
    (hpk : config.get_private_key_bytes = .ok pk)
    (hsk : SigningKey.from_slice pk = .ok sk)
    (hsig : sign sk (pipelineDigest keccak config params) env = .ok (r, s, recid))
    (hr : r < 2 ^ 256) (hs : s < 2 ^ 256)
    (hout : out = 2 :: (Rlp.list [rlpQuantity config.chain_id,
      rlpQuantity params.nonce, rlpQuantity config.max_priority_fee_per_gas,
      rlpQuantity config.max_fee_per_gas, rlpQuantity params.gas_limit,
      Rlp.str params.to_address, rlpQuantity params.value,
      Rlp.str params.input, Rlp.list [],
      rlpQuantity (if Nat.land recid 1 == 1 then 1 else 0), rlpQuantity r,
      rlpQuantity s]).encode) :
    run_signing keccak sign env config params = .ok out
    ∧ main_run keccak sign env configJson paramsJson =
        .value (.ok ('0' :: 'x' :: hexEncode out))
    ∧ ∀ c ∈ hexEncode out, c ∈ lowerHexChars := by
  simp only [pipelineDigest] at hsig
  have hrun : run_signing keccak sign env config params = .ok out := by
    simp only [run_signing, hpk, hsk, hsig]
    rw [hout]
    simp only [encodeSignedTransaction, transactionFields, assembleTransaction,
      messageOf, rlpAction, List.map_nil, beVal_be32 r hr, beVal_be32 s hs]
  refine ⟨hrun, ?_, fun c hc => hexEncode_mem_lower _ c hc⟩
  simp only [main_run, Config.from_env, hcfg, Params.from_path, hp, hrun,
    renderOutput]

/-- Witness for C2: a full concrete run through JSON parsing, signing
and rendering. -/
theorem signed_output_format_witness :
    run_signing keccak0 sign0 0 cfg0 p0 =
      .ok (2 :: (Rlp.list [rlpQuantity cfg0.chain_id, rlpQuantity p0.nonce,
        rlpQuantity cfg0.max_priority_fee_per_gas,
        rlpQuantity cfg0.max_fee_per_gas, rlpQuantity p0.gas_limit,
        Rlp.str p0.to_address, rlpQuantity p0.value, Rlp.str p0.input,
        Rlp.list [], rlpQuantity (if Nat.land 0 1 == 1 then 1 else 0),
        rlpQuantity 0, rlpQuantity 0]).encode)
    ∧ main_run keccak0 sign0 0 cfgJson0 paramsJson0 =
        .value (.ok ('0' :: 'x' :: hexEncode (2 :: (Rlp.list
          [rlpQuantity cfg0.chain_id, rlpQuantity p0.nonce,
           rlpQuantity cfg0.max_priority_fee_per_gas,
           rlpQuantity cfg0.max_fee_per_gas, rlpQuantity p0.gas_limit,
           Rlp.str p0.to_address, rlpQuantity p0.value, Rlp.str p0.input,
           Rlp.list [], rlpQuantity (if Nat.land 0 1 == 1 then 1 else 0),
           rlpQuantity 0, rlpQuantity 0]).encode)))
    ∧ ∀ c ∈ hexEncode (2 :: (Rlp.list [rlpQuantity cfg0.chain_id,
        rlpQuantity p0.nonce, rlpQuantity cfg0.max_priority_fee_per_gas,
        rlpQuantity cfg0.max_fee_per_gas, rlpQuantity p0.gas_limit,
        Rlp.str p0.to_address, rlpQuantity p0.value, Rlp.str p0.input,
        Rlp.list [], rlpQuantity (if Nat.land 0 1 == 1 then 1 else 0),
        rlpQuantity 0, rlpQuantity 0]).encode), c ∈ lowerHexChars :=
  signed_output_format keccak0 sign0 0 cfgJson0 paramsJson0 cfg0 p0
    (List.replicate 31 0 ++ [1]) 1 0 0 0 _ (by rfl) (by rfl) (by rfl) (by rfl)
    (by rfl) (by norm_num) (by norm_num) rfl

theorem strip0x_of_all_hex (s : List Char)
    (hall : ∀ c ∈ s, (hexDigitVal c).isSome) : strip0x s = s := by
  match s with
  | [] => rfl
  | [c] => rfl
  | c1 :: c2 :: rest =>
    have hx : hexDigitVal 'x' = none := by decide
    have hne : ¬(c1 = '0' ∧ c2 = 'x') := by
      intro hcs
      have h2 := hall c2 (by simp)
      rw [hcs.2, hx] at h2
      simp at h2
    simp [strip0x, hne]

/-- Claim C6: a 64-hex-character key decodes identically with and
without a 0x prefix, to the same 32 bytes. -/
theorem key_0x_stripped (chain_id mf mpf : Nat) (k : List Char)
    (hlen : k.length = 64)
    (hhex : ∀ c ∈ k, (hexDigitVal c).isSome) :
    ∃ bytes, bytes.length = 32 ∧
      (Config.mk chain_id mf mpf k).get_private_key_bytes = .ok bytes ∧
      (Config.mk chain_id mf mpf ('0' :: 'x' :: k)).get_private_key_bytes =
        .ok bytes := by
  have hstrip : strip0x ('0' :: 'x' :: k) = k := by
    unfold strip0x
    simp
  have hstrip2 : strip0x k = k := strip0x_of_all_hex k hhex
  have heven : k.length % 2 = 0 := by omega
  obtain ⟨bs, hok, hbl⟩ := hexDecodePairs_ok k hhex heven
  have hdec : hexDecode k = .ok bs := by
    unfold hexDecode
    rw [if_neg (by omega)]
    exact hok
  have hbl32 : bs.length = 32 := by omega
  refine ⟨bs, hbl32, ?_, ?_⟩ <;>
    simp [Config.get_private_key_bytes, hstrip, hstrip2, hdec, hbl32]

/-- Witness for C6 at a concrete 64-character key. -/
theorem key_0x_stripped_witness :
    ∃ bytes, bytes.length = 32 ∧
      (Config.mk 1 0 0 (List.replicate 64 'a')).get_private_key_bytes =
        .ok bytes ∧
      (Config.mk 1 0 0 ('0' :: 'x' :: List.replicate 64 'a')).get_private_key_bytes =
        .ok bytes :=
  key_0x_stripped 1 0 0 (List.replicate 64 'a') (by decide) (by decide)

/-- Claim C7: a private scalar that is zero or at least the curve order
makes the signing stage fail with the returned Ecdsa error kind, which
is distinct from every input-parsing error kind. -/
theorem invalid_scalar_reported (keccak : List Nat → List Nat)
    (sign : Nat → List Nat → Nat → Except EcdsaError (Nat × Nat × Nat))
    (env : Nat) (config : Config) (params : Params) (bytes : List Nat)
    (hpk : config.get_private_key_bytes = .ok bytes)
    (hval : beVal bytes = 0 ∨ curveOrder ≤ beVal bytes) :
    run_signing keccak sign env config params = .error (.Ecdsa .mk)
    ∧ (∀ e, Error.Ecdsa .mk ≠ Error.FromHex e)
    ∧ (∀ n, Error.Ecdsa .mk ≠ Error.InvalidPrivateKeyLength n)
    ∧ (∀ e, Error.Ecdsa .mk ≠ Error.Config e) := by
  have hlen : bytes.length = 32 := private_key_bytes_length config bytes hpk
  have hsk : SigningKey.from_slice bytes = .error .mk := by
    unfold SigningKey.from_slice
    rw [if_pos hlen, if_pos hval]
  refine ⟨?_, ?_, ?_, ?_⟩
  · simp [run_signing, hpk, hsk]
  · intro e h
    cases h
  · intro n h
    cases h
  · intro e h
    cases h

/-- Witness for C7: the all-zero key is rejected by the signing stage
with the Ecdsa error. -/
theorem invalid_scalar_reported_witness :
    run_signing keccak0 sign0 0 cfgZeroKey p0 = .error (.Ecdsa .mk)
    ∧ (∀ e, Error.Ecdsa .mk ≠ Error.FromHex e)
    ∧ (∀ n, Error.Ecdsa .mk ≠ Error.InvalidPrivateKeyLength n)
    ∧ (∀ e, Error.Ecdsa .mk ≠ Error.Config e) :=
  invalid_scalar_reported keccak0 sign0 0 cfgZeroKey p0 (List.replicate 32 0)
    rfl (Or.inl rfl)

/-- Claim C8: an absent call-data field, an empty call-data string and
the string 0x all parse to the empty byte sequence, and with all other
fields equal they give identical digests and identical pipeline
outputs. -/
theorem empty_calldata_equivalent (v₁ v₂ : Option Json)
    (h₁ : v₁ = none ∨ v₁ = some (Json.str []) ∨ v₁ = some (Json.str ['0', 'x']))
    (h₂ : v₂ = none ∨ v₂ = some (Json.str []) ∨ v₂ = some (Json.str ['0', 'x'])) :
    parseInputField v₁ = .ok [] ∧ parseInputField v₁ = parseInputField v₂ ∧
    ∀ keccak sign env config nonce to_address value gas_limit b₁ b₂,
      parseInputField v₁ = .ok b₁ → parseInputField v₂ = .ok b₂ →
      pipelineDigest keccak config
          (Params.mk nonce to_address value gas_limit b₁) =
        pipelineDigest keccak config
          (Params.mk nonce to_address value gas_limit b₂) ∧
      run_signing keccak sign env config
          (Params.mk nonce to_address value gas_limit b₁) =
        run_signing keccak sign env config
          (Params.mk nonce to_address value gas_limit b₂) := by
  have e₁ : parseInputField v₁ = .ok [] := by
    rcases h₁ with h | h | h <;> rw [h] <;> rfl
  have e₂ : parseInputField v₂ = .ok [] := by
    rcases h₂ with h | h | h <;> rw [h] <;> rfl
  refine ⟨e₁, by rw [e₁, e₂], ?_⟩
  intro keccak sign env config nonce to_address value gas_limit b₁ b₂ hb₁ hb₂
  rw [e₁] at hb₁
  rw [e₂] at hb₂
  cases hb₁
  cases hb₂
  exact ⟨rfl, rfl⟩

/-- Witness for C8: the absent field and the bare empty string parse
equally. -/
theorem empty_calldata_equivalent_witness :
    parseInputField none = .ok [] ∧
    parseInputField none = parseInputField (some (Json.str [])) :=
  ⟨(empty_calldata_equivalent none (some (Json.str []))
      (Or.inl rfl) (Or.inr (Or.inl rfl))).1,
   (empty_calldata_equivalent none (some (Json.str []))
      (Or.inl rfl) (Or.inr (Or.inl rfl))).2.1⟩

/-- Counterexample to claim C9 as stated: a transaction intent whose
nonce fails to parse does not surface a typed error — the run aborts
with a panic (the `unwrap` in `Params::from_path`), both at the
parameter-loading step and for the whole run with a well-formed
configuration. -/
theorem malformed_intent_panics :
    Params.from_path badParamsJson = .panic ∧
    main_run keccak0 sign0 0 cfgJson0 badParamsJson = .panic := by
  constructor <;> rfl

/-- Claim C9 as amended: malformed configuration input is returned to
the caller as the typed Config error kind and a successful run emits
only the complete rendered output; but a transaction intent that fails
to parse causes a panic in `Params::from_path` instead of a typed
failure. -/
theorem error_propagation_amended :
    (∀ keccak sign env configJson paramsJson e,
      parseConfig configJson = .error e →
      main_run keccak sign env configJson paramsJson =
        .value (.error (.Config e)))
    ∧ (∀ paramsJson e, parseParams paramsJson = .error e →
        Params.from_path paramsJson = .panic)
    ∧ (∀ keccak sign env configJson paramsJson out,
        main_run keccak sign env configJson paramsJson = .value (.ok out) →
        ∃ config params bytes, parseConfig configJson = .ok config ∧
          parseParams paramsJson = .ok params ∧
          run_signing keccak sign env config params = .ok bytes ∧
          out = renderOutput bytes) := by
  refine ⟨?_, ?_, ?_⟩
  · intro keccak sign env configJson paramsJson e he
    simp [main_run, Config.from_env, he]
  · intro paramsJson e he
    simp [Params.from_path, he]
  · intro keccak sign env configJson paramsJson out hout
    cases hcfg : parseConfig configJson with
    | error e => simp [main_run, Config.from_env, hcfg] at hout
    | ok config =>
      cases hp : parseParams paramsJson with
      | error e =>
        simp [main_run, Config.from_env, hcfg, Params.from_path, hp] at hout
      | ok params =>
        cases hrun : run_signing keccak sign env config params with
        | error e =>
          simp [main_run, Config.from_env, hcfg, Params.from_path, hp,
            hrun] at hout
        | ok bytes =>
          simp only [main_run, Config.from_env, hcfg, Params.from_path, hp,
            hrun] at hout
          cases hout
          exact ⟨config, params, bytes, rfl, rfl, hrun, rfl⟩

/-- Witness for C9 as amended: a configuration missing a field yields
the typed Config error, and the malformed intent panics. -/
theorem error_propagation_amended_witness :
    main_run keccak0 sign0 0 (Json.obj []) paramsJson0 =
      .value (.error (.Config .missingField))
    ∧ Params.from_path badParamsJson = .panic :=
  ⟨error_propagation_amended.1 keccak0 sign0 0 (Json.obj []) paramsJson0
      .missingField rfl,
   error_propagation_amended.2.1 badParamsJson .custom rfl⟩

/-- Claim C10: a JSON number that is not representable as an unsigned
64-bit integer (negative, fractional, or beyond the 64-bit range) does
not make `deserialize_u256` fail: it succeeds with the value zero, while
numbers in the unsigned 64-bit range yield their exact value and strings
are always parsed in base 16. -/
theorem u256_number_silent_zero :
    (∀ jn : JsonNumber, jn.as_u64 = none →
      deserialize_u256 (Json.num jn) = .ok 0)
    ∧ (∀ m : Int, JsonNumber.as_u64 (.negInt m) = none)
    ∧ JsonNumber.as_u64 .float = none
    ∧ (∀ n : Nat, deserialize_u256 (Json.num (.u64val n)) = .ok n)
    ∧ (∀ s : List Char, deserialize_u256 (Json.str s) = from_str_radix16 s) := by
  refine ⟨?_, fun m => rfl, rfl, fun n => rfl, fun s => rfl⟩
  intro jn h
  simp [deserialize_u256, h]

/-- Witness for C10: a negative integer deserializes to zero. -/
theorem u256_number_silent_zero_witness :
    deserialize_u256 (Json.num (JsonNumber.negInt (-5))) = .ok 0 :=
  u256_number_silent_zero.1 (JsonNumber.negInt (-5)) rfl
